import Mathlib

/-!
Verification of the Testbett betting core against its specification.

The Python sources are shallowly embedded: Python floats are modelled as
real numbers (exact arithmetic), fallible functions return `Except`, and
the mutable `BankrollManager` object is modelled by explicit state passing.
Each definition mirrors one function of the repository; the file ends with
one theorem per specification claim.
-/

namespace Testbett

/-! ## src/execution/kelly.py -/

/-- `kelly_fraction(true_prob, decimal_odds)`: `f = (b*p - q)/b` with
`b = decimal_odds - 1`, clamped into `[0, 1]`; `b ≤ 0` gives `0`. -/
noncomputable def kelly_fraction (true_prob decimal_odds : ℝ) : ℝ :=
  let b := decimal_odds - 1
  if b ≤ 0 then 0
  else
    let q := 1 - true_prob
    let f := (b * true_prob - q) / b
    max 0 (min 1 f)

/-- `fractional_kelly(true_prob, decimal_odds, fraction)`: the fractional-Kelly
multiplier applied to the full Kelly fraction. -/
noncomputable def fractional_kelly (true_prob decimal_odds fraction : ℝ) : ℝ :=
  fraction * kelly_fraction true_prob decimal_odds

/-- Python's built-in `round` to an integer: round half to even (banker's
rounding), modelled on exact reals.  Non-tie values round to the nearest
integer; a tie `n + 1/2` rounds to the even neighbour. -/
noncomputable def pyRoundInt (x : ℝ) : ℤ :=
  if x - ⌊x⌋ = 1 / 2 then (if Even ⌊x⌋ then ⌊x⌋ else ⌊x⌋ + 1) else round x

/-- Python's `round(x, n)`: round to `n` decimal places. -/
noncomputable def pyRoundTo (n : ℕ) (x : ℝ) : ℝ :=
  (pyRoundInt (x * 10 ^ n) : ℝ) / 10 ^ n

/-- `compute_stake(bankroll, true_prob, decimal_odds, kelly_frac, max_stake_pct,
min_stake)`: fractional-Kelly stake, capped by `bankroll * max_stake_pct`;
`0.0` when the capped amount is below `min_stake`, otherwise rounded to
two decimal places. -/
noncomputable def compute_stake (bankroll true_prob decimal_odds kelly_frac
    max_stake_pct min_stake : ℝ) : ℝ :=
  let frac := fractional_kelly true_prob decimal_odds kelly_frac
  let stake0 := frac * bankroll
  let stake := min stake0 (bankroll * max_stake_pct)
  if stake < min_stake then 0 else pyRoundTo 2 stake

/-! Helper lemmas about the rounding model. -/

theorem pyRoundInt_le (x : ℝ) : (pyRoundInt x : ℝ) ≤ x + 1 / 2 := by
  unfold pyRoundInt
  split
  · rename_i h
    split
    · have := Int.floor_le x
      linarith
    · push_cast
      linarith
  · exact_mod_cast round_le_add_half x

theorem pyRoundTo_le (n : ℕ) (x : ℝ) : pyRoundTo n x ≤ x + 1 / (2 * 10 ^ n) := by
  unfold pyRoundTo
  have h := pyRoundInt_le (x * 10 ^ n)
  have hpos : (0:ℝ) < 10 ^ n := by positivity
  rw [div_le_iff₀ hpos]
  have : (x + 1 / (2 * 10 ^ n)) * 10 ^ n = x * 10 ^ n + 1 / 2 := by
    field_simp
    ring
  linarith [this ▸ h, h, this.ge]

theorem pyRoundInt_of_floor_eq (x : ℝ) (z : ℤ) (h1 : (z : ℝ) ≤ x)
    (h2 : x < z + 1 / 2) : pyRoundInt x = z := by
  have hfloor : ⌊x⌋ = z := by
    rw [Int.floor_eq_iff]
    constructor
    · exact h1
    · linarith
  unfold pyRoundInt
  rw [hfloor]
  have hne : ¬ (x - (z:ℝ) = 1 / 2) := by
    intro hc
    have : x = (z:ℝ) + 1/2 := by linarith
    rw [this] at h2
    linarith
  rw [if_neg hne]
  rw [round_eq]
  have : ⌊x + 1/2⌋ = z := by
    rw [Int.floor_eq_iff]
    constructor
    · linarith
    · linarith
  exact this

theorem pyRoundInt_of_half_lt (x : ℝ) (z : ℤ) (h1 : (z:ℝ) + 1/2 < x)
    (h2 : x ≤ z + 1) : pyRoundInt x = z + 1 := by
  by_cases hx : x = (z:ℝ) + 1
  · subst hx
    have : pyRoundInt ((z:ℝ) + 1) = pyRoundInt ((z+1 : ℤ) : ℝ) := by push_cast; ring_nf
    rw [this]
    unfold pyRoundInt
    rw [Int.floor_intCast]
    rw [if_neg (by push_cast; norm_num)]
    rw [round_intCast]
  · have hlt : x < (z:ℝ) + 1 := lt_of_le_of_ne h2 hx
    have hfloor : ⌊x⌋ = z := by
      rw [Int.floor_eq_iff]
      constructor
      · linarith
      · linarith
    unfold pyRoundInt
    rw [hfloor]
    have hne : ¬ (x - (z:ℝ) = 1 / 2) := by
      intro hc
      have : x = (z:ℝ) + 1/2 := by linarith
      rw [this] at h1
      linarith
    rw [if_neg hne]
    rw [round_eq]
    have : ⌊x + 1/2⌋ = z + 1 := by
      rw [Int.floor_eq_iff]
      constructor
      · push_cast
        linarith
      · push_cast
        linarith
    exact this

/-- C1 counterexample: with bankroll 100, true probability 0.9, odds 2,
Kelly fraction 0.25, `max_stake_pct = 0.05556` and `min_stake = 1`, the capped
stake is 5.556 and the final rounding to two decimals returns 5.56, which
strictly exceeds `bankroll * max_stake_pct = 5.556`. -/
theorem C1_counterexample :
    compute_stake 100 (9/10) 2 (1/4) (5556/100000) 1 > 100 * (5556/100000) := by
  have hk : kelly_fraction (9/10) 2 = 4/5 := by
    unfold kelly_fraction
    norm_num
  have hstake : compute_stake 100 (9/10) 2 (1/4) (5556/100000) 1
      = pyRoundTo 2 (5556/1000) := by
    unfold compute_stake fractional_kelly
    rw [hk]
    norm_num
  have hround : pyRoundTo 2 (5556/1000 : ℝ) = 556/100 := by
    unfold pyRoundTo
    have hx : (5556/1000 : ℝ) * 10 ^ 2 = 5556/10 := by norm_num
    rw [hx]
    rw [pyRoundInt_of_half_lt (5556/10 : ℝ) 555 (by norm_num) (by norm_num)]
    norm_num
  rw [hstake, hround]
  norm_num

/-- C1 (amended): for nonnegative bankroll and cap percentage, the result of
`compute_stake` never exceeds `bankroll * max_stake_pct` by more than half of
the smallest currency unit (`0.005`, introduced by the final rounding to two
decimals), and it is exactly `0` whenever the amount obtained after the
fractional-Kelly product and the `max_stake_pct` cap is strictly below
`min_stake` (never rounded up to `min_stake`). -/
theorem C1_amended (bankroll true_prob decimal_odds kelly_frac
    max_stake_pct min_stake : ℝ) (hb : 0 ≤ bankroll) (hp : 0 ≤ max_stake_pct) :
    compute_stake bankroll true_prob decimal_odds kelly_frac max_stake_pct min_stake
      ≤ bankroll * max_stake_pct + 1 / 200 ∧
    (min (fractional_kelly true_prob decimal_odds kelly_frac * bankroll)
        (bankroll * max_stake_pct) < min_stake →
      compute_stake bankroll true_prob decimal_odds kelly_frac max_stake_pct min_stake = 0) := by
  have hcap : 0 ≤ bankroll * max_stake_pct := mul_nonneg hb hp
  constructor
  · simp only [compute_stake]
    split
    · linarith
    · have h1 := pyRoundTo_le 2
        (min (fractional_kelly true_prob decimal_odds kelly_frac * bankroll)
          (bankroll * max_stake_pct))
      have h2 := min_le_right
        (fractional_kelly true_prob decimal_odds kelly_frac * bankroll)
        (bankroll * max_stake_pct)
      have : (1 : ℝ) / (2 * 10 ^ 2) = 1 / 200 := by norm_num
      rw [this] at h1
      linarith
  · intro h
    simp only [compute_stake]
    exact if_pos h

/-- Witness for `C1_amended` at the specification's own test vector
(`bankroll = 1000`, `true_prob = 0.55`, `odds = 2`, `kelly_frac = 0.25`,
`max_stake_pct = 0.05`, `min_stake = 1`). -/
theorem C1_amended_witness :
    (0:ℝ) ≤ 1000 ∧ (0:ℝ) ≤ 1/20 ∧
    (compute_stake 1000 (11/20) 2 (1/4) (1/20) 1 ≤ 1000 * (1/20) + 1/200 ∧
     (min (fractional_kelly (11/20) 2 (1/4) * 1000) (1000 * (1/20)) < 1 →
       compute_stake 1000 (11/20) 2 (1/4) (1/20) 1 = 0)) :=
  ⟨by norm_num, by norm_num, C1_amended 1000 (11/20) 2 (1/4) (1/20) 1 (by norm_num) (by norm_num)⟩

/-! ## src/models/poisson.py -/

/-- The result dataclass of the Poisson score model. -/
structure PoissonResult where
  home_win_prob : ℝ
  draw_prob : ℝ
  away_win_prob : ℝ
  over_prob : ℝ
  under_prob : ℝ

/-- `poisson_pmf(k, lam)`: `P(X=k)` for `Poisson(lam)`; a non-positive rate is
degenerate at `0`. -/
noncomputable def poisson_pmf (k : ℕ) (lam : ℝ) : ℝ :=
  if lam ≤ 0 then (if k = 0 then 1 else 0)
  else lam ^ k * Real.exp (-lam) / (Nat.factorial k)

/-- `score_matrix(lam_home, lam_away)[i][j] = P(home=i, away=j)` (the list of
lists is modelled as a function of the two indices). -/
noncomputable def score_matrix (lam_home lam_away : ℝ) (i j : ℕ) : ℝ :=
  poisson_pmf i lam_home * poisson_pmf j lam_away

/-- `compute_probabilities(lam_home, lam_away)`: aggregates the score grid for
`0 ≤ i, j ≤ max_goals` with the default `max_goals = 10` into 1X2 and
over/under 2.5 probabilities.  The Python double loop over the matrix is
modelled as double sums over `Finset.range 11`. -/
noncomputable def compute_probabilities (lam_home lam_away : ℝ) : PoissonResult where
  home_win_prob := ∑ i ∈ Finset.range 11, ∑ j ∈ Finset.range 11,
    if j < i then score_matrix lam_home lam_away i j else 0
  draw_prob := ∑ i ∈ Finset.range 11, ∑ j ∈ Finset.range 11,
    if i = j then score_matrix lam_home lam_away i j else 0
  away_win_prob := ∑ i ∈ Finset.range 11, ∑ j ∈ Finset.range 11,
    if i < j then score_matrix lam_home lam_away i j else 0
  over_prob := ∑ i ∈ Finset.range 11, ∑ j ∈ Finset.range 11,
    if 2 < i + j then score_matrix lam_home lam_away i j else 0
  under_prob := ∑ i ∈ Finset.range 11, ∑ j ∈ Finset.range 11,
    if ¬ 2 < i + j then score_matrix lam_home lam_away i j else 0

/-- The single-margin truncated Poisson mass kept on the grid `0 ≤ k ≤ 10`. -/
noncomputable def pmf_margin (lam : ℝ) : ℝ := ∑ k ∈ Finset.range 11, poisson_pmf k lam

theorem poisson_pmf_nonneg (k : ℕ) (lam : ℝ) : 0 ≤ poisson_pmf k lam := by
  unfold poisson_pmf
  split
  · split
    · norm_num
    · norm_num
  · rename_i h
    push_neg at h
    have h1 : (0:ℝ) ≤ lam ^ k := pow_nonneg (le_of_lt h) k
    have h2 : (0:ℝ) < Real.exp (-lam) := Real.exp_pos _
    positivity

theorem sum3_eq_mul (lh la : ℝ) :
    (compute_probabilities lh la).home_win_prob + (compute_probabilities lh la).draw_prob
      + (compute_probabilities lh la).away_win_prob
    = pmf_margin lh * pmf_margin la := by
  simp only [compute_probabilities, pmf_margin]
  rw [Finset.sum_mul_sum]
  rw [← Finset.sum_add_distrib, ← Finset.sum_add_distrib]
  refine Finset.sum_congr rfl fun i _ => ?_
  rw [← Finset.sum_add_distrib, ← Finset.sum_add_distrib]
  refine Finset.sum_congr rfl fun j _ => ?_
  rcases lt_trichotomy i j with h | h | h
  · rw [if_neg (by omega), if_neg (by omega), if_pos h, score_matrix]
    ring
  · rw [if_neg (by omega), if_pos h, if_neg (by omega), score_matrix]
    ring
  · rw [if_pos h, if_neg (by omega), if_neg (by omega), score_matrix]
    ring

theorem sumOU_eq_mul (lh la : ℝ) :
    (compute_probabilities lh la).over_prob + (compute_probabilities lh la).under_prob
    = pmf_margin lh * pmf_margin la := by
  simp only [compute_probabilities, pmf_margin]
  rw [Finset.sum_mul_sum]
  rw [← Finset.sum_add_distrib]
  refine Finset.sum_congr rfl fun i _ => ?_
  rw [← Finset.sum_add_distrib]
  refine Finset.sum_congr rfl fun j _ => ?_
  by_cases h : 2 < i + j
  · rw [if_pos h, if_neg (by omega), score_matrix]
    ring
  · rw [if_neg h, if_pos h, score_matrix]
    ring

theorem real_exp_eq_tsum (x : ℝ) (n : ℕ) :
    Real.exp x = ∑ k ∈ Finset.range n, x ^ k / (Nat.factorial k)
    + tsum (fun k : ℕ => x ^ (k + n) / (Nat.factorial (k + n))) := by
  have hs := Real.summable_pow_div_factorial x
  have hsplit := sum_add_tsum_nat_add n hs
  have hexp : Real.exp x = tsum (fun k : ℕ => x ^ k / (Nat.factorial k)) := by
    rw [Real.exp_eq_exp_ℝ, NormedSpace.exp_eq_tsum_div]
  rw [hexp, ← hsplit]

theorem sum_pow_div_factorial_le_exp (x : ℝ) (hx : 0 ≤ x) (n : ℕ) :
    ∑ k ∈ Finset.range n, x ^ k / (Nat.factorial k) ≤ Real.exp x := by
  have htail : 0 ≤ tsum (fun k : ℕ => x ^ (k + n) / (Nat.factorial (k + n))) :=
    tsum_nonneg fun k => div_nonneg (pow_nonneg hx _) (by positivity)
  rw [real_exp_eq_tsum x n]
  linarith

theorem exp_tail_le (x : ℝ) (hx : 0 ≤ x) (hx2 : x ≤ 2) :
    Real.exp x - ∑ k ∈ Finset.range 11, x ^ k / (Nat.factorial k)
      ≤ x ^ 11 / 39916800 * (6 / 5) := by
  have hs := Real.summable_pow_div_factorial x
  have hsl : Summable fun k : ℕ => x ^ (k + 11) / (Nat.factorial (k + 11) : ℝ) :=
    (summable_nat_add_iff 11).mpr hs
  have hr0 : (0:ℝ) ≤ x / 12 := by linarith
  have hr1 : x / 12 < 1 := by linarith
  have hsr : Summable fun k : ℕ => x ^ 11 / 39916800 * (x / 12) ^ k :=
    (summable_geometric_of_lt_one hr0 hr1).mul_left _
  have hterm : ∀ k : ℕ, x ^ (k + 11) / (Nat.factorial (k + 11))
      ≤ x ^ 11 / 39916800 * (x / 12) ^ k := by
    intro k
    have hfact : (39916800 : ℝ) * 12 ^ k ≤ (Nat.factorial (k + 11) : ℝ) := by
      have h := Nat.factorial_mul_pow_le_factorial (m := 11) (n := k)
      have h2 : ((Nat.factorial 11 * 12 ^ k : ℕ) : ℝ) ≤ ((Nat.factorial (11 + k) : ℕ) : ℝ) :=
        Nat.cast_le.mpr h
      have h3 : (Nat.factorial 11 : ℝ) = 39916800 := by norm_num [Nat.factorial]
      rw [Nat.cast_mul, h3, Nat.cast_pow] at h2
      have h4 : (11 + k) = (k + 11) := by omega
      rw [h4] at h2
      exact_mod_cast h2
    have hnum : (0:ℝ) ≤ x ^ (k + 11) := pow_nonneg hx _
    have hden : (0:ℝ) < 39916800 * 12 ^ k := by positivity
    have step1 : x ^ (k + 11) / (Nat.factorial (k + 11))
        ≤ x ^ (k + 11) / (39916800 * 12 ^ k) := by
      apply div_le_div_of_nonneg_left hnum hden hfact
    have step2 : x ^ (k + 11) / (39916800 * 12 ^ k)
        = x ^ 11 / 39916800 * (x / 12) ^ k := by
      rw [pow_add, div_pow]
      field_simp
      ring
    rw [step2] at step1
    exact step1
  have hle := tsum_le_tsum hterm hsl hsr
  have hgeom : tsum (fun k : ℕ => x ^ 11 / 39916800 * (x / 12) ^ k)
      = x ^ 11 / 39916800 * (1 - x / 12)⁻¹ := by
    rw [tsum_mul_left, tsum_geometric_of_lt_one hr0 hr1]
  have hinv : (1 - x / 12)⁻¹ ≤ 6 / 5 := by
    have h56 : (0:ℝ) < 5 / 6 := by norm_num
    have hbig : (5/6 : ℝ) ≤ 1 - x / 12 := by linarith
    calc (1 - x / 12)⁻¹ ≤ (5/6 : ℝ)⁻¹ := by
          exact inv_anti₀ h56 hbig
      _ = 6 / 5 := by norm_num
  have hx11 : (0:ℝ) ≤ x ^ 11 / 39916800 := by positivity
  have hfinal : tsum (fun k : ℕ => x ^ (k + 11) / (Nat.factorial (k + 11)))
      ≤ x ^ 11 / 39916800 * (6 / 5) := by
    rw [hgeom] at hle
    calc tsum (fun k : ℕ => x ^ (k + 11) / (Nat.factorial (k + 11)))
        ≤ x ^ 11 / 39916800 * (1 - x / 12)⁻¹ := hle
      _ ≤ x ^ 11 / 39916800 * (6 / 5) := by
          exact mul_le_mul_of_nonneg_left hinv hx11
  have hsplit := real_exp_eq_tsum x 11
  linarith

theorem pmf_margin_of_nonpos (lam : ℝ) (h : lam ≤ 0) : pmf_margin lam = 1 := by
  unfold pmf_margin poisson_pmf
  rw [Finset.sum_congr rfl (fun k _ => if_pos h)]
  rw [Finset.sum_ite_eq' (Finset.range 11) 0 (fun _ => (1:ℝ))]
  simp

theorem pmf_margin_pos_eq (lam : ℝ) (h : 0 < lam) :
    pmf_margin lam = Real.exp (-lam) * ∑ k ∈ Finset.range 11, lam ^ k / (Nat.factorial k) := by
  unfold pmf_margin poisson_pmf
  rw [Finset.mul_sum]
  refine Finset.sum_congr rfl fun k _ => ?_
  rw [if_neg (not_le.mpr h)]
  ring

theorem pmf_margin_nonneg (lam : ℝ) : 0 ≤ pmf_margin lam :=
  Finset.sum_nonneg fun k _ => poisson_pmf_nonneg k lam

theorem pmf_margin_le_one (lam : ℝ) : pmf_margin lam ≤ 1 := by
  rcases le_or_lt lam 0 with h | h
  · rw [pmf_margin_of_nonpos lam h]
  · rw [pmf_margin_pos_eq lam h]
    have hT := sum_pow_div_factorial_le_exp lam (le_of_lt h) 11
    have hpos : (0:ℝ) < Real.exp (-lam) := Real.exp_pos _
    have hone : Real.exp (-lam) * Real.exp lam = 1 := by
      rw [← Real.exp_add]
      norm_num
    calc Real.exp (-lam) * ∑ k ∈ Finset.range 11, lam ^ k / (Nat.factorial k)
        ≤ Real.exp (-lam) * Real.exp lam := mul_le_mul_of_nonneg_left hT (le_of_lt hpos)
      _ = 1 := hone

theorem one_sub_pmf_margin_le (lam : ℝ) (h0 : 0 ≤ lam) (h2 : lam ≤ 2) :
    1 - pmf_margin lam ≤ 1 / 20000 := by
  rcases eq_or_lt_of_le h0 with h | hpos
  · rw [pmf_margin_of_nonpos lam (le_of_eq h.symm)]
    norm_num
  · rw [pmf_margin_pos_eq lam hpos]
    have hone : Real.exp (-lam) * Real.exp lam = 1 := by
      rw [← Real.exp_add]
      norm_num
    have htail := exp_tail_le lam (le_of_lt hpos) h2
    have hexp_pos : (0:ℝ) < Real.exp (-lam) := Real.exp_pos _
    have hstep : 1 - Real.exp (-lam) * ∑ k ∈ Finset.range 11, lam ^ k / (Nat.factorial k)
        ≤ Real.exp (-lam) * (lam ^ 11 / 39916800 * (6 / 5)) := by
      have := mul_le_mul_of_nonneg_left htail (le_of_lt hexp_pos)
      calc 1 - Real.exp (-lam) * ∑ k ∈ Finset.range 11, lam ^ k / (Nat.factorial k)
          = Real.exp (-lam) *
            (Real.exp lam - ∑ k ∈ Finset.range 11, lam ^ k / (Nat.factorial k)) := by
            rw [mul_sub, hone]
        _ ≤ Real.exp (-lam) * (lam ^ 11 / 39916800 * (6 / 5)) := this
    -- exp (-lam) ≤ ((lam/2 + 1)^2)⁻¹
    have hsq : (lam / 2 + 1) ^ 2 ≤ Real.exp lam := by
      have ha := Real.add_one_le_exp (lam / 2)
      have hnn : (0:ℝ) ≤ lam / 2 + 1 := by linarith
      have h1 : (lam / 2 + 1) ^ 2 ≤ (Real.exp (lam / 2)) ^ 2 := by
        have := Real.exp_pos (lam / 2)
        nlinarith
      have h2 : (Real.exp (lam / 2)) ^ 2 = Real.exp lam := by
        rw [sq, ← Real.exp_add]
        norm_num
      linarith
    have hupos : (0:ℝ) < (lam / 2 + 1) ^ 2 := by positivity
    have hinv : Real.exp (-lam) ≤ ((lam / 2 + 1) ^ 2)⁻¹ := by
      rw [Real.exp_neg]
      exact inv_anti₀ hupos hsq
    have htail_nn : (0:ℝ) ≤ lam ^ 11 / 39916800 * (6 / 5) := by positivity
    have hstep2 : Real.exp (-lam) * (lam ^ 11 / 39916800 * (6 / 5))
        ≤ ((lam / 2 + 1) ^ 2)⁻¹ * (lam ^ 11 / 39916800 * (6 / 5)) :=
      mul_le_mul_of_nonneg_right hinv htail_nn
    -- numeric bound: lam^11 ≤ 512 * (lam/2 + 1)^2 on [0, 2]
    have h9 : lam ^ 9 ≤ 512 := by
      calc lam ^ 9 ≤ 2 ^ 9 := pow_le_pow_left₀ h0 h2 9
        _ = 512 := by norm_num
    have hsq2 : lam ^ 2 ≤ (lam / 2 + 1) ^ 2 := by
      apply pow_le_pow_left₀ h0
      linarith
    have h512 : lam ^ 11 ≤ 512 * (lam / 2 + 1) ^ 2 := by
      have h11 : lam ^ 11 = lam ^ 2 * lam ^ 9 := by ring
      have hl2 : (0:ℝ) ≤ lam ^ 2 := sq_nonneg lam
      nlinarith
    have hfinal : ((lam / 2 + 1) ^ 2)⁻¹ * (lam ^ 11 / 39916800 * (6 / 5)) ≤ 1 / 20000 := by
      have hu := hupos
      rw [inv_mul_le_iff₀ hu]
      have hge1 : (1:ℝ) ≤ (lam / 2 + 1) ^ 2 := by nlinarith
      nlinarith
    linarith

/-- C2 counterexample: at rates `λh = λa = 10` (inside the claimed range
`0 ≤ λ ≤ 10`) the truncated grid with `max_goals = 10` keeps well under 85%
of each Poisson margin, so the 1X2 probabilities of `compute_probabilities`
sum to less than `0.71`: the claimed `1e-4` tolerance fails. -/
theorem C2_counterexample :
    1 / 10000 < |(compute_probabilities 10 10).home_win_prob
      + (compute_probabilities 10 10).draw_prob
      + (compute_probabilities 10 10).away_win_prob - 1| := by
  have e3 := sum3_eq_mul 10 10
  have hT : ∑ k ∈ Finset.range 11, (10:ℝ) ^ k / (Nat.factorial k) = 7281587 / 567 := by
    simp [Finset.sum_range_succ, Nat.factorial]
    norm_num
  have hP : ∑ k ∈ Finset.range 12, (10:ℝ) ^ k / (Nat.factorial k) = 95722457 / 6237 := by
    simp [Finset.sum_range_succ, Nat.factorial]
    norm_num
  have hPle : (95722457 / 6237 : ℝ) ≤ Real.exp 10 := by
    rw [← hP]
    exact sum_pow_div_factorial_le_exp 10 (by norm_num) 12
  have hS_le : pmf_margin 10 ≤ 21 / 25 := by
    rw [pmf_margin_pos_eq 10 (by norm_num), hT]
    have hinv : Real.exp (-10) ≤ 6237 / 95722457 := by
      rw [Real.exp_neg]
      have h1 : ((95722457 / 6237 : ℝ))⁻¹ = 6237 / 95722457 := by norm_num
      calc (Real.exp 10)⁻¹ ≤ ((95722457 / 6237 : ℝ))⁻¹ :=
            inv_anti₀ (by norm_num) hPle
        _ = 6237 / 95722457 := h1
    calc Real.exp (-10) * (7281587 / 567 : ℝ)
        ≤ (6237 / 95722457) * (7281587 / 567 : ℝ) :=
          mul_le_mul_of_nonneg_right hinv (by norm_num)
      _ ≤ 21 / 25 := by norm_num
  have hS_nn := pmf_margin_nonneg 10
  have hq : (compute_probabilities 10 10).home_win_prob
      + (compute_probabilities 10 10).draw_prob
      + (compute_probabilities 10 10).away_win_prob ≤ 441 / 625 := by
    rw [e3]
    calc pmf_margin 10 * pmf_margin 10 ≤ (21/25) * (21/25) :=
          mul_le_mul hS_le hS_le hS_nn (by norm_num)
      _ = 441 / 625 := by norm_num
  have h1 : 1 / 10000 < 1 - ((compute_probabilities 10 10).home_win_prob
      + (compute_probabilities 10 10).draw_prob
      + (compute_probabilities 10 10).away_win_prob) := by linarith
  calc (1:ℝ) / 10000 < 1 - ((compute_probabilities 10 10).home_win_prob
        + (compute_probabilities 10 10).draw_prob
        + (compute_probabilities 10 10).away_win_prob) := h1
    _ ≤ |(compute_probabilities 10 10).home_win_prob
        + (compute_probabilities 10 10).draw_prob
        + (compute_probabilities 10 10).away_win_prob - 1| := by
        rw [abs_sub_comm]
        exact le_abs_self _

/-- C2 (amended): for rates `0 ≤ λh, λa ≤ 10` with the default
`max_goals = 10`, the 1X2 sum and the over/under sum of `compute_probabilities`
are each at most 1 and equal to each other (both equal the product of the two
truncated Poisson margins); the within-`1e-4`-of-1 guarantee holds on the
narrower range `λh, λa ≤ 2`, but fails at `λh = λa = 10`. -/
theorem C2_amended (lh la : ℝ) (hh0 : 0 ≤ lh) (hh10 : lh ≤ 10)
    (ha0 : 0 ≤ la) (ha10 : la ≤ 10) :
    ((compute_probabilities lh la).home_win_prob + (compute_probabilities lh la).draw_prob
        + (compute_probabilities lh la).away_win_prob ≤ 1 ∧
      (compute_probabilities lh la).over_prob + (compute_probabilities lh la).under_prob ≤ 1 ∧
      (compute_probabilities lh la).home_win_prob + (compute_probabilities lh la).draw_prob
        + (compute_probabilities lh la).away_win_prob
        = (compute_probabilities lh la).over_prob + (compute_probabilities lh la).under_prob) ∧
    (lh ≤ 2 → la ≤ 2 →
      |(compute_probabilities lh la).home_win_prob + (compute_probabilities lh la).draw_prob
        + (compute_probabilities lh la).away_win_prob - 1| ≤ 1 / 10000 ∧
      |(compute_probabilities lh la).over_prob + (compute_probabilities lh la).under_prob - 1|
        ≤ 1 / 10000) := by
  have e3 := sum3_eq_mul lh la
  have eOU := sumOU_eq_mul lh la
  have hh1 := pmf_margin_le_one lh
  have ha1 := pmf_margin_le_one la
  have hhn := pmf_margin_nonneg lh
  have han := pmf_margin_nonneg la
  have hprod1 : pmf_margin lh * pmf_margin la ≤ 1 := by nlinarith
  refine ⟨⟨by rw [e3]; exact hprod1, by rw [eOU]; exact hprod1, e3.trans eOU.symm⟩, ?_⟩
  intro hl2 hr2
  have t1 := one_sub_pmf_margin_le lh hh0 hl2
  have t2 := one_sub_pmf_margin_le la ha0 hr2
  have hprod : 1 - pmf_margin lh * pmf_margin la ≤ 1 / 10000 := by nlinarith
  constructor
  · rw [e3, abs_of_nonpos (by linarith)]
    linarith
  · rw [eOU, abs_of_nonpos (by linarith)]
    linarith

/-- Witness for `C2_amended` at `λh = λa = 0` (all mass on the 0-0 score). -/
theorem C2_amended_witness :
    ((0:ℝ) ≤ 0 ∧ (0:ℝ) ≤ 10) ∧
    (((compute_probabilities 0 0).home_win_prob + (compute_probabilities 0 0).draw_prob
        + (compute_probabilities 0 0).away_win_prob ≤ 1 ∧
      (compute_probabilities 0 0).over_prob + (compute_probabilities 0 0).under_prob ≤ 1 ∧
      (compute_probabilities 0 0).home_win_prob + (compute_probabilities 0 0).draw_prob
        + (compute_probabilities 0 0).away_win_prob
        = (compute_probabilities 0 0).over_prob + (compute_probabilities 0 0).under_prob) ∧
    ((0:ℝ) ≤ 2 → (0:ℝ) ≤ 2 →
      |(compute_probabilities 0 0).home_win_prob + (compute_probabilities 0 0).draw_prob
        + (compute_probabilities 0 0).away_win_prob - 1| ≤ 1 / 10000 ∧
      |(compute_probabilities 0 0).over_prob + (compute_probabilities 0 0).under_prob - 1|
        ≤ 1 / 10000)) :=
  ⟨⟨le_rfl, by norm_num⟩, C2_amended 0 0 le_rfl (by norm_num) le_rfl (by norm_num)⟩

/-! ## src/models/true_probability.py -/

/-- The `MarketProbabilities` dataclass. -/
structure MarketProbabilities where
  home_win : ℝ
  draw : ℝ
  away_win : ℝ
  over_25 : ℝ
  under_25 : ℝ

/-- `compute_true_probabilities(poisson_result)`: field-by-field repackaging. -/
noncomputable def compute_true_probabilities (p : PoissonResult) : MarketProbabilities where
  home_win := p.home_win_prob
  draw := p.draw_prob
  away_win := p.away_win_prob
  over_25 := p.over_prob
  under_25 := p.under_prob

/-- `implied_probability(decimal_odds)`: `1/odds`; raises `ValueError`
("Odds must be positive") for `odds ≤ 0`, modelled as `Except.error`. -/
noncomputable def implied_probability (decimal_odds : ℝ) : Except String ℝ :=
  if decimal_odds ≤ 0 then .error "Odds must be positive" else .ok (1 / decimal_odds)

/-- The value computed by `implied_probability` on its non-raising domain
(`0 < odds`); used to state properties of callers that never hit the raise. -/
noncomputable def impliedProb (decimal_odds : ℝ) : ℝ := 1 / decimal_odds

theorem implied_probability_of_pos (o : ℝ) (h : 0 < o) :
    implied_probability o = .ok (impliedProb o) := by
  unfold implied_probability impliedProb
  rw [if_neg (not_le.mpr h)]

/-- `devig(home_odds, draw_odds, away_odds)`: proportional de-vig; any
non-positive leg propagates the `implied_probability` error. -/
noncomputable def devig (home_odds draw_odds away_odds : ℝ) : Except String (ℝ × ℝ × ℝ) := do
  let ph ← implied_probability home_odds
  let pd ← implied_probability draw_odds
  let pa ← implied_probability away_odds
  let total := ph + pd + pa
  return (ph / total, pd / total, pa / total)

/-- `compute_edge(true_prob, decimal_odds)`: `true_prob - implied_prob`. -/
noncomputable def compute_edge (true_prob decimal_odds : ℝ) : Except String ℝ := do
  let ip ← implied_probability decimal_odds
  return true_prob - ip

/-- The value computed by `compute_edge` on the non-raising domain. -/
noncomputable def edgeVal (true_prob decimal_odds : ℝ) : ℝ :=
  true_prob - impliedProb decimal_odds

theorem compute_edge_of_pos (p o : ℝ) (h : 0 < o) :
    compute_edge p o = .ok (edgeVal p o) := by
  unfold compute_edge edgeVal
  rw [implied_probability_of_pos o h]
  rfl

/-- C9: for strictly positive odds, `devig` succeeds, each output equals the
corresponding implied probability divided by the sum of the three implied
probabilities, the three outputs sum exactly to 1 (hence within `1e-9`), and
equal odds give exactly `1/3` each. -/
theorem C9_devig (oh od oa : ℝ) (hh : 0 < oh) (hd : 0 < od) (ha : 0 < oa) :
    devig oh od oa = .ok
      (impliedProb oh / (impliedProb oh + impliedProb od + impliedProb oa),
       impliedProb od / (impliedProb oh + impliedProb od + impliedProb oa),
       impliedProb oa / (impliedProb oh + impliedProb od + impliedProb oa)) ∧
    (impliedProb oh / (impliedProb oh + impliedProb od + impliedProb oa)
      + impliedProb od / (impliedProb oh + impliedProb od + impliedProb oa)
      + impliedProb oa / (impliedProb oh + impliedProb od + impliedProb oa) = 1 ∧
     |impliedProb oh / (impliedProb oh + impliedProb od + impliedProb oa)
      + impliedProb od / (impliedProb oh + impliedProb od + impliedProb oa)
      + impliedProb oa / (impliedProb oh + impliedProb od + impliedProb oa) - 1|
        ≤ 1 / 1000000000) ∧
    (oh = od → od = oa →
      devig oh od oa = .ok (1/3, 1/3, 1/3)) := by
  have hsum : 0 < impliedProb oh + impliedProb od + impliedProb oa := by
    unfold impliedProb
    positivity
  have hdevig : devig oh od oa = .ok
      (impliedProb oh / (impliedProb oh + impliedProb od + impliedProb oa),
       impliedProb od / (impliedProb oh + impliedProb od + impliedProb oa),
       impliedProb oa / (impliedProb oh + impliedProb od + impliedProb oa)) := by
    unfold devig
    rw [implied_probability_of_pos oh hh, implied_probability_of_pos od hd,
      implied_probability_of_pos oa ha]
    rfl
  have hone : impliedProb oh / (impliedProb oh + impliedProb od + impliedProb oa)
      + impliedProb od / (impliedProb oh + impliedProb od + impliedProb oa)
      + impliedProb oa / (impliedProb oh + impliedProb od + impliedProb oa) = 1 := by
    field_simp
  refine ⟨hdevig, ⟨hone, by rw [hone]; norm_num⟩, ?_⟩
  intro h1 h2
  subst h1
  subst h2
  rw [hdevig]
  have hip : impliedProb oh ≠ 0 := by
    unfold impliedProb
    positivity
  have h3 : impliedProb oh / (impliedProb oh + impliedProb oh + impliedProb oh) = 1/3 := by
    field_simp
    ring
  rw [h3]

/-- Witness for `C9_devig` at the market quote `(2.10, 3.40, 3.60)` used by
the repository tests. -/
theorem C9_devig_witness :
    ((0:ℝ) < 21/10 ∧ (0:ℝ) < 17/5 ∧ (0:ℝ) < 18/5) ∧
    (devig (21/10) (17/5) (18/5) = .ok
      (impliedProb (21/10) / (impliedProb (21/10) + impliedProb (17/5) + impliedProb (18/5)),
       impliedProb (17/5) / (impliedProb (21/10) + impliedProb (17/5) + impliedProb (18/5)),
       impliedProb (18/5) / (impliedProb (21/10) + impliedProb (17/5) + impliedProb (18/5))) ∧
    (impliedProb (21/10) / (impliedProb (21/10) + impliedProb (17/5) + impliedProb (18/5))
      + impliedProb (17/5) / (impliedProb (21/10) + impliedProb (17/5) + impliedProb (18/5))
      + impliedProb (18/5) / (impliedProb (21/10) + impliedProb (17/5) + impliedProb (18/5)) = 1 ∧
     |impliedProb (21/10) / (impliedProb (21/10) + impliedProb (17/5) + impliedProb (18/5))
      + impliedProb (17/5) / (impliedProb (21/10) + impliedProb (17/5) + impliedProb (18/5))
      + impliedProb (18/5) / (impliedProb (21/10) + impliedProb (17/5) + impliedProb (18/5)) - 1|
        ≤ 1 / 1000000000) ∧
    ((21/10 : ℝ) = 17/5 → (17/5 : ℝ) = 18/5 →
      devig (21/10) (17/5) (18/5) = .ok (1/3, 1/3, 1/3))) :=
  ⟨⟨by norm_num, by norm_num, by norm_num⟩,
    C9_devig (21/10) (17/5) (18/5) (by norm_num) (by norm_num) (by norm_num)⟩

/-! ## src/execution/bankroll.py -/

/-- The `BankrollState` dataclass (`bets_today` is an integer counter). -/
structure BankrollState where
  balance : ℝ
  initial_balance : ℝ
  total_wagered : ℝ
  total_profit_loss : ℝ
  daily_loss : ℝ
  bets_today : ℕ

/-- What the bankroll file at `filepath` holds: absent, present but failing
`json.load` / `BankrollState(**data)` (`JSONDecodeError`/`TypeError`/`KeyError`),
or a parseable serialized state. -/
inductive FileContent where
  | missing
  | corrupt
  | good (s : BankrollState)

/-- The `BankrollManager` object: constructor argument `initial_balance`, the
in-memory `self._state` cache, and the durable file it reads and writes. -/
structure BankrollManager where
  initial_balance : ℝ
  cache : Option BankrollState
  file : FileContent

/-- The "Create fresh state" block of `BankrollManager.load`. -/
noncomputable def fresh_bankroll_state (initial_balance : ℝ) : BankrollState where
  balance := initial_balance
  initial_balance := initial_balance
  total_wagered := 0
  total_profit_loss := 0
  daily_loss := 0
  bets_today := 0

/-- `BankrollManager.load()`: reads the file; a parseable file yields its
state (cached into `self._state`); a missing or corrupt file yields a freshly
seeded state which is immediately persisted (`self.save`).  Note that the
method never consults the existing `self._state` cache.  Returns the state
together with the manager after the call. -/
noncomputable def BankrollManager.load (m : BankrollManager) :
    BankrollState × BankrollManager :=
  match m.file with
  | .good s => (s, { m with cache := some s })
  | _ =>
      let fresh := fresh_bankroll_state m.initial_balance
      (fresh, { m with cache := some fresh, file := .good fresh })

/-- The idiom `state = self._state or self.load()` used by the mutating
methods: the cached state when present (a dataclass instance is always
truthy), otherwise the result of `load`. -/
noncomputable def BankrollManager.getState (m : BankrollManager) :
    BankrollState × BankrollManager :=
  match m.cache with
  | some s => (s, m)
  | none => m.load

/-- The field mutations performed by `BankrollManager.record_bet`. -/
noncomputable def record_bet_update (s : BankrollState) (stake : ℝ) : BankrollState :=
  { s with balance := s.balance - stake,
           total_wagered := s.total_wagered + stake,
           bets_today := s.bets_today + 1 }

/-- The field mutations performed by `BankrollManager.record_result`. -/
noncomputable def record_result_update (s : BankrollState) (profit_loss : ℝ) : BankrollState :=
  { s with balance := s.balance + profit_loss,
           total_profit_loss := s.total_profit_loss + profit_loss,
           daily_loss := if profit_loss < 0 then s.daily_loss + |profit_loss|
                         else s.daily_loss }

/-- `BankrollManager.record_bet(stake)`: mutate the current state and persist
(`self.save`, modelled as writing the file). -/
noncomputable def BankrollManager.record_bet (m : BankrollManager) (stake : ℝ) :
    BankrollManager :=
  let sm := m.getState
  let s2 := record_bet_update sm.1 stake
  { sm.2 with cache := some s2, file := .good s2 }

/-- `BankrollManager.record_result(profit_loss)`: mutate and persist. -/
noncomputable def BankrollManager.record_result (m : BankrollManager) (profit_loss : ℝ) :
    BankrollManager :=
  let sm := m.getState
  let s2 := record_result_update sm.1 profit_loss
  { sm.2 with cache := some s2, file := .good s2 }

/-- `BankrollManager.check_daily_loss_limit(limit)`: true while
`state.daily_loss < limit` (pure read, apart from a lazy first load). -/
noncomputable def BankrollManager.check_daily_loss_limit (m : BankrollManager)
    (daily_loss_limit : ℝ) : Bool :=
  decide ((m.getState).1.daily_loss < daily_loss_limit)

/-- C3 counterexample: a manager whose in-memory cache (seeded from balance 1)
differs from the durable file content (balance 2).  `load()` returns the file
content, not the cached state: the cached-state short-circuit claimed by the
specification does not exist in `load`. -/
theorem C3_counterexample :
    (BankrollManager.load
      { initial_balance := 5, cache := some (fresh_bankroll_state 1),
        file := .good (fresh_bankroll_state 2) }).1 = fresh_bankroll_state 2 ∧
    fresh_bankroll_state 2 ≠ fresh_bankroll_state 1 := by
  constructor
  · rfl
  · intro h
    have hb := congrArg BankrollState.balance h
    simp only [fresh_bankroll_state] at hb
    norm_num at hb

/-- C3 (amended): `load()` ignores the in-memory cache entirely — its result
depends only on the durable file.  A parseable file yields the parsed state
(which becomes the new cache); a missing or corrupt file yields a freshly
seeded state (balance = initial balance, all counters zero) that is
immediately persisted.  The cached-state short-circuit lives in the callers
(`state = self._state or self.load()`), not in `load`. -/
theorem C3_amended :
    (∀ (m : BankrollManager) (c : Option BankrollState),
      (BankrollManager.load { m with cache := c }).1 = (m.load).1) ∧
    (∀ (m : BankrollManager) (s : BankrollState), m.file = .good s →
      m.load = (s, { m with cache := some s })) ∧
    (∀ m : BankrollManager, m.file = .missing ∨ m.file = .corrupt →
      m.load = (fresh_bankroll_state m.initial_balance,
        { m with cache := some (fresh_bankroll_state m.initial_balance),
                 file := .good (fresh_bankroll_state m.initial_balance) })) := by
  refine ⟨?_, ?_, ?_⟩
  · intro m c
    unfold BankrollManager.load
    cases m.file <;> rfl
  · intro m s h
    unfold BankrollManager.load
    rw [h]
  · intro m h
    unfold BankrollManager.load
    rcases h with h | h <;> rw [h]

/-- Witness for `C3_amended`: a manager over a missing file self-heals to the
freshly seeded state and persists it. -/
theorem C3_amended_witness :
    (({ initial_balance := 7, cache := none, file := .missing } : BankrollManager).file
        = .missing ∨
     ({ initial_balance := 7, cache := none, file := .missing } : BankrollManager).file
        = .corrupt) ∧
    ({ initial_balance := 7, cache := none, file := .missing } : BankrollManager).load
      = (fresh_bankroll_state 7,
         { initial_balance := 7, cache := some (fresh_bankroll_state 7),
           file := .good (fresh_bankroll_state 7) }) :=
  ⟨Or.inl rfl,
    C3_amended.2.2 { initial_balance := 7, cache := none, file := .missing } (Or.inl rfl)⟩

/-- A call sequence against the ledger: `record_bet(stake)` or
`record_result(profit_loss)` (settlement may interleave arbitrarily). -/
inductive LedgerOp where
  | bet (stake : ℝ)
  | result (profit_loss : ℝ)

/-- Dispatch one ledger call. -/
noncomputable def BankrollManager.apply (m : BankrollManager) : LedgerOp → BankrollManager
  | .bet stake => m.record_bet stake
  | .result pl => m.record_result pl

/-- Run a whole call sequence. -/
noncomputable def BankrollManager.applyAll (m : BankrollManager) (ops : List LedgerOp) :
    BankrollManager :=
  ops.foldl BankrollManager.apply m

/-- The accounting identity of the ledger state. -/
def accounting_ok (s : BankrollState) : Prop :=
  s.balance = s.initial_balance - s.total_wagered + s.total_profit_loss

theorem getState_apply_bet (m : BankrollManager) (stake : ℝ) :
    ((m.apply (.bet stake)).getState).1 = record_bet_update (m.getState).1 stake := rfl

theorem getState_apply_result (m : BankrollManager) (pl : ℝ) :
    ((m.apply (.result pl)).getState).1 = record_result_update (m.getState).1 pl := rfl

theorem accounting_ok_apply (m : BankrollManager) (op : LedgerOp)
    (h : accounting_ok (m.getState).1) : accounting_ok ((m.apply op).getState).1 := by
  cases op with
  | bet stake =>
      rw [getState_apply_bet]
      unfold accounting_ok at h
      unfold accounting_ok record_bet_update
      simp only
      linarith
  | result pl =>
      rw [getState_apply_result]
      unfold accounting_ok at h
      unfold accounting_ok record_result_update
      simp only
      linarith

theorem accounting_ok_applyAll (ops : List LedgerOp) :
    ∀ m : BankrollManager, accounting_ok (m.getState).1 →
      accounting_ok ((m.applyAll ops).getState).1 := by
  induction ops with
  | nil => intro m h; exact h
  | cons op rest ih =>
      intro m h
      exact ih (m.apply op) (accounting_ok_apply m op h)

/-- C10: starting from the freshly seeded state produced by loading an absent
ledger file, every interleaving of `record_bet` and `record_result` calls
preserves `balance = initial_balance - total_wagered + total_profit_loss`,
and each single call can only increase (never decrease) the same-day loss
accumulator and the `bets_today` counter. -/
theorem C10_ledger_invariants (init : ℝ) (ops : List LedgerOp) :
    accounting_ok
      (((({ initial_balance := init, cache := none, file := .missing } :
          BankrollManager).load.2).applyAll ops).getState).1 ∧
    (∀ (m : BankrollManager) (op : LedgerOp),
      (m.getState).1.daily_loss ≤ ((m.apply op).getState).1.daily_loss ∧
      (m.getState).1.bets_today ≤ ((m.apply op).getState).1.bets_today) := by
  constructor
  · apply accounting_ok_applyAll
    show accounting_ok (fresh_bankroll_state init)
    unfold accounting_ok fresh_bankroll_state
    simp only
    ring
  · intro m op
    cases op with
    | bet stake =>
        rw [getState_apply_bet]
        unfold record_bet_update
        exact ⟨le_refl _, Nat.le_succ _⟩
    | result pl =>
        rw [getState_apply_result]
        unfold record_result_update
        refine ⟨?_, le_refl _⟩
        simp only
        split
        · have := abs_nonneg pl
          linarith
        · exact le_refl _

/-! ## src/llm/bet_analyst.py -/

/-- A decoded JSON value, as produced by `json.loads` on the advisory reply. -/
inductive Json where
  | null
  | bool (b : Bool)
  | num (x : ℝ)
  | str (s : String)
  | arr (elems : List Json)
  | obj (fields : List (String × Json))

/-- The Python exceptions relevant to `BetAnalyst._parse`.
`jsonDecodeError` stands for `json.JSONDecodeError` (raised by `json.loads`
itself and caught, like `TypeError` and `ValueError`); `attributeError` is
raised by `data.get` on a non-dict value and is not in the except clause. -/
inductive PyErr where
  | jsonDecodeError
  | typeError
  | valueError
  | attributeError
deriving DecidableEq

/-- `dict.get(key, default)` on a decoded JSON object (field names of a
decoded object are distinct). -/
def jsonGet (fields : List (String × Json)) (key : String) (dflt : Json) : Json :=
  match fields.find? (fun kv => kv.1 = key) with
  | some kv => kv.2
  | none => dflt

/-- Python truthiness (`bool(x)`) of a decoded JSON value. -/
noncomputable def pyTruthy : Json → Bool
  | .null => false
  | .bool b => b
  | .num x => decide (x ≠ 0)
  | .str s => !(s == "")
  | .arr l => !l.isEmpty
  | .obj l => !l.isEmpty

/-- A finite decimal literal (optional sign, digits, optional fraction part),
the fragment of Python `float(str)` exercised by numeric-string JSON fields.
(The Python builtin additionally strips whitespace and accepts exponents and
infinities; none of the theorems below depend on those inputs.) -/
def decimal_string_to_rat (s : String) : Option ℚ :=
  let core : String → Option ℚ := fun t =>
    match t.splitOn "." with
    | [ip] =>
        if ip.length > 0 && ip.toList.all Char.isDigit then
          (ip.toNat?).map (fun n => (n : ℚ))
        else none
    | [ip, fp] =>
        if (ip.length > 0 || fp.length > 0) && ip.toList.all Char.isDigit
            && fp.toList.all Char.isDigit then
          some (((ip.toNat?).getD 0 : ℚ) + ((fp.toNat?).getD 0 : ℚ) / 10 ^ fp.length)
        else none
    | _ => none
  if s.startsWith "-" then (core (s.drop 1)).map Neg.neg
  else if s.startsWith "+" then core (s.drop 1)
  else core s

/-- Python `float(x)` on a decoded JSON value: numbers and booleans convert,
numeric strings parse (`ValueError` otherwise), and `None`/lists/dicts raise
`TypeError`. -/
noncomputable def pyFloat : Json → Except PyErr ℝ
  | .bool b => .ok (if b then 1 else 0)
  | .num x => .ok x
  | .str s =>
      match decimal_string_to_rat s with
      | some q => .ok (q : ℝ)
      | none => .error .valueError
  | .null => .error .typeError
  | .arr _ => .error .typeError
  | .obj _ => .error .typeError

/-- Python `str(x)` on a decoded JSON value.  Only the identity case on
strings matters to the embedded code; the rendered text of non-string values
is abstracted (no claim inspects it). -/
noncomputable def pyStr : Json → String
  | .str s => s
  | .null => "None"
  | .bool b => if b then "True" else "False"
  | .num _ => "<number>"
  | .arr _ => "<list>"
  | .obj _ => "<dict>"

/-- The `BetAnalysis` dataclass. -/
structure BetAnalysis where
  approved : Bool
  confidence : ℝ
  reasoning : String
  stake_multiplier : ℝ

/-- The conservative default built in the `except` clause of
`BetAnalyst._parse`. -/
noncomputable def parse_error_default : BetAnalysis where
  approved := false
  confidence := 0
  reasoning := "LLM response parse error - bet skipped as a precaution."
  stake_multiplier := 1

/-- `BetAnalyst._parse(raw)`, applied to the outcome of `json.loads(raw)`
(`Except.error` = the decode raised).  `json.JSONDecodeError`, `TypeError`
and `ValueError` are caught and yield the conservative default;
`data.get` on a non-dict decoded value raises `AttributeError`, which the
except clause does not list, so it propagates (`Except.error`). -/
noncomputable def BetAnalyst.parse (decoded : Except PyErr Json) :
    Except PyErr BetAnalysis :=
  match decoded with
  | .error _ => .ok parse_error_default
  | .ok (.obj fields) =>
      let approved := pyTruthy (jsonGet fields "approved" (.bool false))
      match pyFloat (jsonGet fields "confidence" (.num (1/2))) with
      | .error _ => .ok parse_error_default
      | .ok confidence =>
          let reasoning := pyStr (jsonGet fields "reasoning" (.str ""))
          match pyFloat (jsonGet fields "stake_multiplier" (.num 1)) with
          | .error _ => .ok parse_error_default
          | .ok sm =>
              .ok { approved := approved, confidence := confidence,
                    reasoning := reasoning,
                    stake_multiplier := max 0 (min 2 sm) }
  | .ok _ => .error .attributeError

/-- C4 (code bug): a reply that decodes to valid JSON of the wrong shape — the
non-object `123` — makes `_parse` raise an uncaught `AttributeError`
(`data.get` on an `int`) instead of yielding the conservative rejection, so
the run aborts rather than skipping the candidate; the caught decode-failure
path does yield the conservative `approved = false` default as claimed. -/
theorem C4_parse_code_bug :
    BetAnalyst.parse (.ok (.num 123)) = .error .attributeError ∧
    BetAnalyst.parse (.error .jsonDecodeError) = .ok parse_error_default ∧
    parse_error_default.approved = false :=
  ⟨rfl, rfl, rfl⟩

/-! ## src/execution/sportsbook_api.py, config/settings.py -/

/-- The `BetRequest` dataclass. -/
structure BetRequest where
  event_id : String
  market_type : String
  selection : String
  stake : ℝ
  odds : ℝ

/-- The `BetResponse` dataclass. -/
structure BetResponse where
  success : Bool
  bet_id : String
  message : String

/-- The `Settings` fields consumed by the executor (numeric environment
values modelled as exact numbers; `MAX_BETS_PER_RUN` is a count). -/
structure Settings where
  DRY_RUN : Bool
  KELLY_FRACTION : ℝ
  MAX_STAKE_PCT : ℝ
  MIN_STAKE : ℝ
  MAX_BETS_PER_RUN : ℕ
  DAILY_LOSS_LIMIT : ℝ
  MIN_EDGE_THRESHOLD : ℝ

/-- The `NormalizedEvent` dataclass (src/research/normalization.py). -/
structure NormalizedEvent where
  event_id : String
  home_team : String
  away_team : String
  market_type : String
  home_odds : ℝ
  draw_odds : ℝ
  away_odds : ℝ
  home_lambda : ℝ
  away_lambda : ℝ
  timestamp : ℝ

/-! ## src/execution/executor.py -/

/-- One bet record dict appended to `records` by `Executor.run`. -/
structure BetRecord where
  bet_id : String
  event_id : String
  home_team : String
  away_team : String
  market_type : String
  selection : String
  stake : ℝ
  odds : ℝ
  true_prob : ℝ
  edge : ℝ
  llm_reasoning : String
  dry_run : Bool
  success : Bool

/-- The `Executor` object: the sportsbook collaborator is its `place_bet`
method, the optional analyst is its `analyse` method
`(event, selection, decimal_odds, true_prob, edge, kelly_stake) ↦ BetAnalysis`
(`none` = disabled). -/
structure Executor where
  sportsbook : BetRequest → BetResponse
  settings : Settings
  llm_analyst : Option (NormalizedEvent → String → ℝ → ℝ → ℝ → ℝ → BetAnalysis)

/-- Python `max(xs, key=key)` over a non-empty list `x :: xs`: scan left to
right, replacing the current best only on a strictly larger key, so the
first of several maximal elements wins. -/
noncomputable def pyMaxBy {α : Type} (key : α → ℝ) (x : α) (xs : List α) : α :=
  xs.foldl (fun acc c => if key acc < key c then c else acc) x

/-- `Executor._best_selection(event, true_probs)`: the highest-edge candidate
among home → draw → away, returned as
`(selection, edge, odds, true_prob)`.  `compute_edge` is represented by its
value `edgeVal` on positive odds (the run raises `ValueError` before reaching
any comparison when a leg has non-positive odds, so the executor is analysed
on the non-raising domain). -/
noncomputable def best_selection (event : NormalizedEvent)
    (true_probs : MarketProbabilities) : String × ℝ × ℝ × ℝ :=
  let c1 : String × ℝ × ℝ := ("home", true_probs.home_win, event.home_odds)
  let c2 : String × ℝ × ℝ := ("draw", true_probs.draw, event.draw_odds)
  let c3 : String × ℝ × ℝ := ("away", true_probs.away_win, event.away_odds)
  let best := pyMaxBy (fun c => edgeVal c.2.1 c.2.2) c1 [c2, c3]
  (best.1, edgeVal best.2.1 best.2.2, best.2.2, best.2.1)

/-- The per-run loop state of `Executor.run`: the bankroll manager (whose
cached state is aliased by the local `state` variable), the `records`
accumulator and the `bets_placed` counter. -/
structure RunState where
  manager : BankrollManager
  records : List BetRecord
  bets_placed : ℕ

/-- The tail of one loop iteration of `Executor.run`, from building the
`BetRequest` onward: place (or dry-run simulate, with the random uuid suffix
abstracted as a fixed placeholder), call `record_bet` only on a successful
non-dry-run placement, and append the bet record. -/
noncomputable def place_and_record (ex : Executor) (st : RunState)
    (event : NormalizedEvent) (selection : String)
    (best_edge best_odds best_true_prob stake : ℝ) (llm_reasoning : String) :
    RunState :=
  let bet : BetRequest :=
    { event_id := event.event_id, market_type := event.market_type,
      selection := selection, stake := stake, odds := best_odds }
  let placed : Bool × String × BankrollManager :=
    if ex.settings.DRY_RUN then
      (true, "dry_ffffffff", st.manager)
    else
      ((ex.sportsbook bet).success, (ex.sportsbook bet).bet_id,
        if (ex.sportsbook bet).success then st.manager.record_bet stake else st.manager)
  let record : BetRecord :=
    { bet_id := placed.2.1, event_id := event.event_id,
      home_team := event.home_team, away_team := event.away_team,
      market_type := event.market_type, selection := selection, stake := stake,
      odds := best_odds, true_prob := pyRoundTo 4 best_true_prob,
      edge := pyRoundTo 4 best_edge, llm_reasoning := llm_reasoning,
      dry_run := ex.settings.DRY_RUN, success := placed.1 }
  { manager := placed.2.2, records := st.records ++ [record],
    bets_placed := st.bets_placed + 1 }

/-- The body of one loop iteration of `Executor.run` (after the two risk
gates): Poisson model, best selection, minimum-edge gate, stake computation,
optional LLM second opinion (rejection, multiplier with re-clamp and
minimum-stake re-check), then placement and record.  All `continue`
statements return the loop state unchanged. -/
noncomputable def process_event (ex : Executor) (st : RunState)
    (event : NormalizedEvent) : RunState :=
  let state := (st.manager.getState).1
  let poisson_result := compute_probabilities event.home_lambda event.away_lambda
  let true_probs := compute_true_probabilities poisson_result
  let bs := best_selection event true_probs
  if bs.2.1 < ex.settings.MIN_EDGE_THRESHOLD then st
  else
    let stake := compute_stake state.balance bs.2.2.2 bs.2.2.1
      ex.settings.KELLY_FRACTION ex.settings.MAX_STAKE_PCT ex.settings.MIN_STAKE
    if stake ≤ 0 then st
    else
      match ex.llm_analyst with
      | none => place_and_record ex st event bs.1 bs.2.1 bs.2.2.1 bs.2.2.2 stake ""
      | some analyse =>
          let analysis := analyse event bs.1 bs.2.2.1 bs.2.2.2 bs.2.1 stake
          if analysis.approved = false then st
          else
            let stake2 := min (pyRoundTo 2 (stake * analysis.stake_multiplier))
              (pyRoundTo 2 (state.balance * ex.settings.MAX_STAKE_PCT))
            if stake2 < ex.settings.MIN_STAKE then st
            else place_and_record ex st event bs.1 bs.2.1 bs.2.2.1 bs.2.2.2 stake2
              analysis.reasoning

/-- The `for event in events` loop of `Executor.run`: before each event the
two gates are re-checked — `bets_placed < MAX_BETS_PER_RUN` and
`check_daily_loss_limit` — and breaking either gate ends the run, returning
the records accumulated so far. -/
noncomputable def run_loop (ex : Executor) : RunState → List NormalizedEvent → RunState
  | st, [] => st
  | st, event :: rest =>
      if st.bets_placed ≥ ex.settings.MAX_BETS_PER_RUN then st
      else if st.manager.check_daily_loss_limit ex.settings.DAILY_LOSS_LIMIT then
        run_loop ex (process_event ex st event) rest
      else st

/-- `Executor.run(events)`: load the bankroll state, run the loop, return the
bet records (the final manager is returned alongside so that theorems can
speak about ledger effects). -/
noncomputable def Executor.run (ex : Executor) (bankroll : BankrollManager)
    (events : List NormalizedEvent) : List BetRecord × BankrollManager :=
  let lm := bankroll.load
  let final := run_loop ex { manager := lm.2, records := [], bets_placed := 0 } events
  (final.records, final.manager)

theorem place_and_record_shape (ex : Executor) (st : RunState) (event : NormalizedEvent)
    (selection : String) (best_edge best_odds best_true_prob stake : ℝ)
    (llm_reasoning : String) :
    (place_and_record ex st event selection best_edge best_odds best_true_prob stake
        llm_reasoning).records.length = st.records.length + 1 ∧
    (place_and_record ex st event selection best_edge best_odds best_true_prob stake
        llm_reasoning).bets_placed = st.bets_placed + 1 := by
  simp only [place_and_record]
  constructor
  · simp
  · trivial

theorem process_event_cases (ex : Executor) (st : RunState) (event : NormalizedEvent) :
    process_event ex st event = st ∨
    ∃ (sel : String) (e o p stk : ℝ) (r : String),
      process_event ex st event = place_and_record ex st event sel e o p stk r := by
  simp only [process_event]
  split
  · exact Or.inl rfl
  · split
    · exact Or.inl rfl
    · split
      · exact Or.inr ⟨_, _, _, _, _, _, rfl⟩
      · split
        · exact Or.inl rfl
        · split
          · exact Or.inl rfl
          · exact Or.inr ⟨_, _, _, _, _, _, rfl⟩

theorem process_event_len_bets (ex : Executor) (st : RunState) (event : NormalizedEvent) :
    ((process_event ex st event).records.length = st.records.length ∧
      (process_event ex st event).bets_placed = st.bets_placed) ∨
    ((process_event ex st event).records.length = st.records.length + 1 ∧
      (process_event ex st event).bets_placed = st.bets_placed + 1) := by
  rcases process_event_cases ex st event with h | ⟨sel, e, o, p, stk, r, h⟩
  · rw [h]
    exact Or.inl ⟨rfl, rfl⟩
  · rw [h]
    exact Or.inr (place_and_record_shape ex st event sel e o p stk r)

theorem run_loop_records_le (ex : Executor) (events : List NormalizedEvent) :
    ∀ st : RunState, st.records.length = st.bets_placed →
      st.bets_placed ≤ ex.settings.MAX_BETS_PER_RUN →
      (run_loop ex st events).records.length ≤ ex.settings.MAX_BETS_PER_RUN := by
  induction events with
  | nil =>
      intro st hinv hle
      rw [run_loop, hinv]
      exact hle
  | cons event rest ih =>
      intro st hinv hle
      rw [run_loop]
      split
      · rw [hinv]
        exact hle
      · rename_i hlt
        push_neg at hlt
        split
        · rcases process_event_len_bets ex st event with ⟨h1, h2⟩ | ⟨h1, h2⟩
          · exact ih _ (by rw [h1, h2, hinv]) (by omega)
          · exact ih _ (by rw [h1, h2, hinv]) (by omega)
        · rw [hinv]
          exact hle

/-- C5: (a) a run never emits more than `MAX_BETS_PER_RUN` bet records;
(b) at every loop step (before every event, whatever the loop state reached
so far) the bets-placed gate is re-checked and breaching it ends the run,
returning the state accumulated so far, without error; (c) likewise for the
daily-loss gate `check_daily_loss_limit`. -/
theorem C5_run_gates :
    (∀ (ex : Executor) (m : BankrollManager) (events : List NormalizedEvent),
      ((ex.run m events).1).length ≤ ex.settings.MAX_BETS_PER_RUN) ∧
    (∀ (ex : Executor) (st : RunState) (event : NormalizedEvent)
        (rest : List NormalizedEvent),
      ex.settings.MAX_BETS_PER_RUN ≤ st.bets_placed →
        run_loop ex st (event :: rest) = st) ∧
    (∀ (ex : Executor) (st : RunState) (event : NormalizedEvent)
        (rest : List NormalizedEvent),
      st.manager.check_daily_loss_limit ex.settings.DAILY_LOSS_LIMIT = false →
        run_loop ex st (event :: rest) = st) := by
  refine ⟨?_, ?_, ?_⟩
  · intro ex m events
    exact run_loop_records_le ex events _ rfl (Nat.zero_le _)
  · intro ex st event rest h
    rw [run_loop, if_pos h]
  · intro ex st event rest h
    rw [run_loop]
    split
    · rfl
    · rw [h]
      simp

/-- Settings mirroring the environment defaults
(`config/settings.py`: Kelly 0.25, cap 5%, min stake 1, 5 bets/run,
daily loss limit 50, edge threshold 0.03, dry run). -/
noncomputable def sample_settings : Settings where
  DRY_RUN := true
  KELLY_FRACTION := 1/4
  MAX_STAKE_PCT := 1/20
  MIN_STAKE := 1
  MAX_BETS_PER_RUN := 5
  DAILY_LOSS_LIMIT := 50
  MIN_EDGE_THRESHOLD := 3/100

/-- The fixture event of the repository test suite (odds 2.10/3.40/3.60,
rates 1.8/1.2). -/
noncomputable def sample_event : NormalizedEvent where
  event_id := "test_001"
  home_team := "HomeFC"
  away_team := "AwayFC"
  market_type := "1X2"
  home_odds := 21/10
  draw_odds := 17/5
  away_odds := 18/5
  home_lambda := 9/5
  away_lambda := 6/5
  timestamp := 0

/-- The stub sportsbook of src/execution/sportsbook_api.py. -/
noncomputable def sample_sportsbook : BetRequest → BetResponse :=
  fun bet =>
    { success := true, bet_id := "stub_" ++ bet.event_id, message := "DRY_RUN stub" }

/-- An executor over the stub sportsbook with no analyst configured. -/
noncomputable def sample_executor : Executor where
  sportsbook := sample_sportsbook
  settings := sample_settings
  llm_analyst := none

/-- A bankroll manager whose file is absent (first ever run). -/
noncomputable def sample_manager : BankrollManager where
  initial_balance := 1000
  cache := none
  file := .missing

/-- Witness for `C5_run_gates`: with five bets already placed the loop stops
before considering the next event. -/
theorem C5_run_gates_witness :
    sample_executor.settings.MAX_BETS_PER_RUN
      ≤ (RunState.mk sample_manager [] 5).bets_placed ∧
    run_loop sample_executor (RunState.mk sample_manager [] 5) [sample_event]
      = RunState.mk sample_manager [] 5 :=
  ⟨le_refl 5,
    C5_run_gates.2.1 sample_executor (RunState.mk sample_manager [] 5) sample_event []
      (le_refl 5)⟩

/-- The `(selection, edge, odds, true_prob)` quadruple the loop body derives
for an event (Poisson model → true probabilities → best selection). -/
noncomputable def event_best (event : NormalizedEvent) : String × ℝ × ℝ × ℝ :=
  best_selection event (compute_true_probabilities
    (compute_probabilities event.home_lambda event.away_lambda))

/-- The stake the loop body computes for an event against the current loop
state (the balance read through the manager cache aliased by `state`). -/
noncomputable def event_stake (ex : Executor) (st : RunState)
    (event : NormalizedEvent) : ℝ :=
  compute_stake (st.manager.getState).1.balance (event_best event).2.2.2
    (event_best event).2.2.1 ex.settings.KELLY_FRACTION ex.settings.MAX_STAKE_PCT
    ex.settings.MIN_STAKE

/-- C6: every skip path of the loop body — edge below threshold, zero stake,
advisory rejection, post-multiplier stake below the minimum — leaves the whole
loop state unchanged: the bankroll manager (cached state and persisted file),
the records list, and the bet counter. -/
theorem C6_skip_no_mutation (ex : Executor) (st : RunState) (event : NormalizedEvent) :
    ((event_best event).2.1 < ex.settings.MIN_EDGE_THRESHOLD →
      process_event ex st event = st) ∧
    (event_stake ex st event ≤ 0 → process_event ex st event = st) ∧
    (∀ analyse, ex.llm_analyst = some analyse →
      ((analyse event (event_best event).1 (event_best event).2.2.1
          (event_best event).2.2.2 (event_best event).2.1
          (event_stake ex st event)).approved = false →
        process_event ex st event = st) ∧
      (min (pyRoundTo 2 (event_stake ex st event *
            (analyse event (event_best event).1 (event_best event).2.2.1
              (event_best event).2.2.2 (event_best event).2.1
              (event_stake ex st event)).stake_multiplier))
          (pyRoundTo 2 ((st.manager.getState).1.balance * ex.settings.MAX_STAKE_PCT))
          < ex.settings.MIN_STAKE →
        process_event ex st event = st)) := by
  refine ⟨?_, ?_, ?_⟩
  · intro h
    simp only [event_best] at h
    simp only [process_event]
    rw [if_pos h]
  · intro h
    simp only [event_stake, event_best] at h
    simp only [process_event]
    split
    · rfl
    · rfl
  · intro analyse hA
    constructor
    · intro happ
      simp only [event_stake, event_best] at happ
      simp only [process_event]
      split
      · rfl
      · split
        · rfl
        · simp only [hA]
          rw [if_pos happ]
    · intro hmin
      simp only [event_stake, event_best] at hmin
      simp only [process_event]
      split
      · rfl
      · split
        · rfl
        · simp only [hA]
          by_cases happ : (analyse event
              (best_selection event (compute_true_probabilities
                (compute_probabilities event.home_lambda event.away_lambda))).1
              (best_selection event (compute_true_probabilities
                (compute_probabilities event.home_lambda event.away_lambda))).2.2.1
              (best_selection event (compute_true_probabilities
                (compute_probabilities event.home_lambda event.away_lambda))).2.2.2
              (best_selection event (compute_true_probabilities
                (compute_probabilities event.home_lambda event.away_lambda))).2.1
              (compute_stake (st.manager.getState).1.balance
                (best_selection event (compute_true_probabilities
                  (compute_probabilities event.home_lambda event.away_lambda))).2.2.2
                (best_selection event (compute_true_probabilities
                  (compute_probabilities event.home_lambda event.away_lambda))).2.2.1
                ex.settings.KELLY_FRACTION ex.settings.MAX_STAKE_PCT
                ex.settings.MIN_STAKE)).approved = false
          · rw [if_pos happ]
          · rw [if_neg happ, if_pos hmin]

/-- An advisory stub that rejects every candidate. -/
noncomputable def reject_analyst :
    NormalizedEvent → String → ℝ → ℝ → ℝ → ℝ → BetAnalysis :=
  fun _ _ _ _ _ _ =>
    { approved := false, confidence := 0, reasoning := "stub reject",
      stake_multiplier := 1 }

/-- An executor whose configured analyst rejects everything. -/
noncomputable def sample_reject_executor : Executor where
  sportsbook := sample_sportsbook
  settings := sample_settings
  llm_analyst := some reject_analyst

/-- A loop state over an already-loaded healthy manager. -/
noncomputable def sample_run_state : RunState where
  manager :=
    { initial_balance := 1000, cache := some (fresh_bankroll_state 1000),
      file := .good (fresh_bankroll_state 1000) }
  records := []
  bets_placed := 0

/-- Witness for `C6_skip_no_mutation`: an advisory rejection skips the
candidate with no mutation at all. -/
theorem C6_skip_no_mutation_witness :
    sample_reject_executor.llm_analyst = some reject_analyst ∧
    (reject_analyst sample_event (event_best sample_event).1
        (event_best sample_event).2.2.1 (event_best sample_event).2.2.2
        (event_best sample_event).2.1
        (event_stake sample_reject_executor sample_run_state sample_event)).approved
      = false ∧
    process_event sample_reject_executor sample_run_state sample_event
      = sample_run_state :=
  ⟨rfl, rfl,
    ((C6_skip_no_mutation sample_reject_executor sample_run_state sample_event).2.2
        reject_analyst rfl).1 rfl⟩

/-- The `BetRequest` the loop builds for the finalized candidate. -/
noncomputable def mk_bet_request (event : NormalizedEvent) (selection : String)
    (stake odds : ℝ) : BetRequest where
  event_id := event.event_id
  market_type := event.market_type
  selection := selection
  stake := stake
  odds := odds

/-- The bet record appended for a finalized candidate placed via the live
sportsbook (bet id and success flag taken from the placement response). -/
noncomputable def mk_live_record (ex : Executor) (event : NormalizedEvent)
    (selection : String) (best_edge best_odds best_true_prob stake : ℝ)
    (llm_reasoning : String) (success : Bool) : BetRecord where
  bet_id := (ex.sportsbook (mk_bet_request event selection stake best_odds)).bet_id
  event_id := event.event_id
  home_team := event.home_team
  away_team := event.away_team
  market_type := event.market_type
  selection := selection
  stake := stake
  odds := best_odds
  true_prob := pyRoundTo 4 best_true_prob
  edge := pyRoundTo 4 best_edge
  llm_reasoning := llm_reasoning
  dry_run := ex.settings.DRY_RUN
  success := success

/-- C7: in non-dry-run mode, when the placement collaborator reports failure
for a finalized bet, a bet record with `success = false` is still appended
(and the bet counter advances, the loop continuing normally), while the
ledger manager is left untouched; in general `record_bet` is invoked exactly
when the placement response reports success. -/
theorem C7_placement_failure (ex : Executor) (st : RunState) (event : NormalizedEvent)
    (selection : String) (best_edge best_odds best_true_prob stake : ℝ)
    (llm_reasoning : String) (hdry : ex.settings.DRY_RUN = false) :
    ((ex.sportsbook (mk_bet_request event selection stake best_odds)).success = false →
      (place_and_record ex st event selection best_edge best_odds best_true_prob stake
          llm_reasoning).manager = st.manager ∧
      (place_and_record ex st event selection best_edge best_odds best_true_prob stake
          llm_reasoning).records = st.records ++
        [mk_live_record ex event selection best_edge best_odds best_true_prob stake
          llm_reasoning false] ∧
      (place_and_record ex st event selection best_edge best_odds best_true_prob stake
          llm_reasoning).bets_placed = st.bets_placed + 1) ∧
    ((place_and_record ex st event selection best_edge best_odds best_true_prob stake
        llm_reasoning).manager =
      if (ex.sportsbook (mk_bet_request event selection stake best_odds)).success then
        st.manager.record_bet stake
      else st.manager) := by
  constructor
  · intro hfail
    simp only [mk_bet_request] at hfail
    simp only [place_and_record, mk_live_record, mk_bet_request, hdry]
    refine ⟨?_, ?_, trivial⟩
    · simp [hfail]
    · simp [hfail]
  · simp only [place_and_record, mk_bet_request, hdry]
    simp

/-- A sportsbook collaborator that rejects every wager. -/
noncomputable def fail_sportsbook : BetRequest → BetResponse :=
  fun _ => { success := false, bet_id := "fail_1", message := "rejected" }

/-- An executor in live (non-dry-run) mode over the rejecting sportsbook. -/
noncomputable def sample_fail_executor : Executor where
  sportsbook := fail_sportsbook
  settings := { sample_settings with DRY_RUN := false }
  llm_analyst := none

/-- Witness for `C7_placement_failure`: a concrete rejected wager leaves the
manager untouched and appends a failure record. -/
theorem C7_placement_failure_witness :
    sample_fail_executor.settings.DRY_RUN = false ∧
    (sample_fail_executor.sportsbook
        (mk_bet_request sample_event "home" 25 (21/10))).success = false ∧
    ((place_and_record sample_fail_executor sample_run_state sample_event "home"
        (1/20) (21/10) (11/20) 25 "").manager = sample_run_state.manager ∧
     (place_and_record sample_fail_executor sample_run_state sample_event "home"
        (1/20) (21/10) (11/20) 25 "").records = sample_run_state.records ++
        [mk_live_record sample_fail_executor sample_event "home"
          (1/20) (21/10) (11/20) 25 "" false] ∧
     (place_and_record sample_fail_executor sample_run_state sample_event "home"
        (1/20) (21/10) (11/20) 25 "").bets_placed
        = sample_run_state.bets_placed + 1) :=
  ⟨rfl, rfl,
    (C7_placement_failure sample_fail_executor sample_run_state sample_event "home"
        (1/20) (21/10) (11/20) 25 "" rfl).1 rfl⟩

/-- C8: for positive odds (the domain on which `compute_edge` returns rather
than raises), the selection returned by `_best_selection` carries the maximal
edge among home → draw → away, and ties on the maximal edge go to the first
leg in that order (Python `max` keeps the current element unless a strictly
larger key appears). -/
theorem C8_best_selection (event : NormalizedEvent) (tp : MarketProbabilities)
    (hh : 0 < event.home_odds) (hd : 0 < event.draw_odds) (ha : 0 < event.away_odds) :
    (compute_edge tp.home_win event.home_odds = .ok (edgeVal tp.home_win event.home_odds) ∧
     compute_edge tp.draw event.draw_odds = .ok (edgeVal tp.draw event.draw_odds) ∧
     compute_edge tp.away_win event.away_odds = .ok (edgeVal tp.away_win event.away_odds)) ∧
    (best_selection event tp).2.1
      = max (edgeVal tp.home_win event.home_odds)
          (max (edgeVal tp.draw event.draw_odds) (edgeVal tp.away_win event.away_odds)) ∧
    (edgeVal tp.draw event.draw_odds ≤ edgeVal tp.home_win event.home_odds →
     edgeVal tp.away_win event.away_odds ≤ edgeVal tp.home_win event.home_odds →
      best_selection event tp
        = ("home", edgeVal tp.home_win event.home_odds, event.home_odds, tp.home_win)) ∧
    (edgeVal tp.home_win event.home_odds < edgeVal tp.draw event.draw_odds →
     edgeVal tp.away_win event.away_odds ≤ edgeVal tp.draw event.draw_odds →
      best_selection event tp
        = ("draw", edgeVal tp.draw event.draw_odds, event.draw_odds, tp.draw)) ∧
    (edgeVal tp.home_win event.home_odds < edgeVal tp.away_win event.away_odds →
     edgeVal tp.draw event.draw_odds < edgeVal tp.away_win event.away_odds →
      best_selection event tp
        = ("away", edgeVal tp.away_win event.away_odds, event.away_odds, tp.away_win)) := by
  refine ⟨⟨compute_edge_of_pos _ _ hh, compute_edge_of_pos _ _ hd,
    compute_edge_of_pos _ _ ha⟩, ?_, ?_, ?_, ?_⟩
  · rcases le_or_lt (edgeVal tp.draw event.draw_odds)
        (edgeVal tp.home_win event.home_odds) with h21 | h12
    · rcases le_or_lt (edgeVal tp.away_win event.away_odds)
          (edgeVal tp.home_win event.home_odds) with h31 | h13
      · simp only [best_selection, pyMaxBy, List.foldl]
        rw [if_neg (not_lt.mpr h21), if_neg (not_lt.mpr h31)]
        exact (max_eq_left (max_le h21 h31)).symm
      · simp only [best_selection, pyMaxBy, List.foldl]
        rw [if_neg (not_lt.mpr h21), if_pos h13]
        rw [max_eq_right (h21.trans (le_of_lt h13)), max_eq_right (le_of_lt h13)]
    · rcases le_or_lt (edgeVal tp.away_win event.away_odds)
          (edgeVal tp.draw event.draw_odds) with h32 | h23
      · simp only [best_selection, pyMaxBy, List.foldl]
        rw [if_pos h12, if_neg (not_lt.mpr h32)]
        rw [max_eq_left h32, max_eq_right (le_of_lt h12)]
      · simp only [best_selection, pyMaxBy, List.foldl]
        rw [if_pos h12, if_pos h23]
        rw [max_eq_right (le_of_lt h23), max_eq_right (le_of_lt (h12.trans h23))]
  · intro h21 h31
    simp only [best_selection, pyMaxBy, List.foldl]
    rw [if_neg (not_lt.mpr h21), if_neg (not_lt.mpr h31)]
  · intro h12 h32
    simp only [best_selection, pyMaxBy, List.foldl]
    rw [if_pos h12, if_neg (not_lt.mpr h32)]
  · intro h13 h23
    simp only [best_selection, pyMaxBy, List.foldl]
    rcases le_or_lt (edgeVal tp.draw event.draw_odds)
        (edgeVal tp.home_win event.home_odds) with h21 | h12
    · rw [if_neg (not_lt.mpr h21), if_pos h13]
    · rw [if_pos h12, if_pos h23]

/-- Witness for `C8_best_selection` at the test fixture quote
`(2.10, 3.40, 3.60)` and probabilities `(0.5, 0.3, 0.2)`: the home leg has
the maximal edge and is selected. -/
theorem C8_best_selection_witness :
    ((0:ℝ) < sample_event.home_odds ∧ (0:ℝ) < sample_event.draw_odds ∧
      (0:ℝ) < sample_event.away_odds) ∧
    (edgeVal (MarketProbabilities.mk (1/2) (3/10) (1/5) (1/2) (1/2)).draw
        sample_event.draw_odds
      ≤ edgeVal (MarketProbabilities.mk (1/2) (3/10) (1/5) (1/2) (1/2)).home_win
        sample_event.home_odds) ∧
    (edgeVal (MarketProbabilities.mk (1/2) (3/10) (1/5) (1/2) (1/2)).away_win
        sample_event.away_odds
      ≤ edgeVal (MarketProbabilities.mk (1/2) (3/10) (1/5) (1/2) (1/2)).home_win
        sample_event.home_odds) ∧
    best_selection sample_event (MarketProbabilities.mk (1/2) (3/10) (1/5) (1/2) (1/2))
      = ("home",
         edgeVal (MarketProbabilities.mk (1/2) (3/10) (1/5) (1/2) (1/2)).home_win
           sample_event.home_odds,
         sample_event.home_odds,
         (MarketProbabilities.mk (1/2) (3/10) (1/5) (1/2) (1/2)).home_win) := by
  have hh : (0:ℝ) < sample_event.home_odds := by
    simp only [sample_event]
    norm_num
  have hd : (0:ℝ) < sample_event.draw_odds := by
    simp only [sample_event]
    norm_num
  have ha : (0:ℝ) < sample_event.away_odds := by
    simp only [sample_event]
    norm_num
  have h21 : edgeVal (MarketProbabilities.mk (1/2) (3/10) (1/5) (1/2) (1/2)).draw
      sample_event.draw_odds
      ≤ edgeVal (MarketProbabilities.mk (1/2) (3/10) (1/5) (1/2) (1/2)).home_win
      sample_event.home_odds := by
    simp only [sample_event, edgeVal, impliedProb]
    norm_num
  have h31 : edgeVal (MarketProbabilities.mk (1/2) (3/10) (1/5) (1/2) (1/2)).away_win
      sample_event.away_odds
      ≤ edgeVal (MarketProbabilities.mk (1/2) (3/10) (1/5) (1/2) (1/2)).home_win
      sample_event.home_odds := by
    simp only [sample_event, edgeVal, impliedProb]
    norm_num
  exact ⟨⟨hh, hd, ha⟩, h21, h31,
    (C8_best_selection sample_event
      (MarketProbabilities.mk (1/2) (3/10) (1/5) (1/2) (1/2)) hh hd ha).2.2.1 h21 h31⟩

end Testbett
